import Mathlib

/-!
Verification of the overlay web app's core (src/script.js): chroma-key
extraction, transform geometry (drag / resize / crop), angle normalization
and the undo/redo history machine. Numbers of the script are modelled as
real numbers; rasters as dimensioned pixel functions; the asynchronous
image decodes complete immediately (the callback body runs in place).
-/

namespace OverlayApp

/-- RGBA pixel with integer channel values (bytes in the script). -/
structure Pixel where
  r : ℕ
  g : ℕ
  b : ℕ
  a : ℕ

/-- Raster image: pixel dimensions plus a pixel lookup function. -/
structure Raster where
  width : ℕ
  height : ℕ
  pix : ℕ → ℕ → Pixel

/-! ## Chroma key extraction (applyGreyKey, script.js lines 305-346) -/

/-- Key colour red channel, `keyR` in the script. -/
def keyR : ℕ := 128

/-- Key colour green channel. -/
def keyG : ℕ := 128

/-- Key colour blue channel. -/
def keyB : ℕ := 128

/-- Tolerance `tol` in `applyGreyKey`. -/
def tol : ℕ := 22

/-- Ramp width, `const ramp = tol < 254 ? 2 : 1`. -/
def ramp : ℕ := if tol < 254 then 2 else 1

/-- JavaScript `Math.round`: round half toward positive infinity. -/
def jsRound (q : ℚ) : ℤ := ⌊q + 1 / 2⌋

/-- Storing into a `Uint8ClampedArray` clamps the value into `[0, 255]`. -/
def uint8clamp (z : ℤ) : ℕ := (min 255 (max 0 z)).toNat

/-- Alpha lookup table of `applyGreyKey`: `lut[d]` for a colour distance `d`. -/
def lut (d : ℕ) : ℕ :=
  if d ≤ tol then uint8clamp 0
  else if tol + ramp ≤ d then uint8clamp 255
  else uint8clamp (jsRound ((255 * ((d : ℚ) - tol)) / ramp))

/-- Distance of a pixel from the key colour:
`max(|r - keyR|, max(|g - keyG|, |b - keyB|))`. -/
def maxDiff (p : Pixel) : ℕ :=
  max ((p.r : ℤ) - keyR).natAbs (max ((p.g : ℤ) - keyG).natAbs ((p.b : ℤ) - keyB).natAbs)

/-- Chroma-key extraction: RGB pass through, alpha is rewritten from the
lookup table at the pixel's distance from the key colour. -/
def applyGreyKey (img : Raster) : Raster :=
  ⟨img.width, img.height, fun i j =>
    let p := img.pix i j
    ⟨p.r, p.g, p.b, lut (maxDiff p)⟩⟩

/-! ## Angle normalization (normalizeAngle, script.js lines 568-573) -/

/-- First loop of `normalizeAngle`: `while (a > 180) a -= 360`. -/
noncomputable def normLoop1 (a : ℝ) : ℝ :=
  if 180 < a then normLoop1 (a - 360) else a
termination_by (⌈(a - 180) / 360⌉).toNat
decreasing_by
  have h1 : (a - 360 - 180) / 360 = (a - 180) / 360 - 1 := by ring
  have h2 : (0 : ℝ) < (a - 180) / 360 := by
    apply div_pos (by linarith) (by norm_num)
  have h3 : 0 < ⌈(a - 180) / 360⌉ := Int.ceil_pos.mpr h2
  rw [h1, Int.ceil_sub_one]
  omega

/-- Second loop of `normalizeAngle`: `while (a < -180) a += 360`. -/
noncomputable def normLoop2 (a : ℝ) : ℝ :=
  if a < -180 then normLoop2 (a + 360) else a
termination_by (⌈(-180 - a) / 360⌉).toNat
decreasing_by
  have h1 : (-180 - (a + 360)) / 360 = (-180 - a) / 360 - 1 := by ring
  have h2 : (0 : ℝ) < (-180 - a) / 360 := by
    apply div_pos (by linarith) (by norm_num)
  have h3 : 0 < ⌈(-180 - a) / 360⌉ := Int.ceil_pos.mpr h2
  rw [h1, Int.ceil_sub_one]
  omega

/-- Normalize an angle to `[-180, 180]` (script.js `normalizeAngle`). -/
noncomputable def normalizeAngle (a : ℝ) : ℝ := normLoop2 (normLoop1 a)

/-! ## Transform state and application state (script.js globals) -/

/-- Placement of the overlay, the script's `overlayState` record: top-left
corner `(x, y)` of the unrotated bounding box in background pixel space,
uniform `scale`, rotation `angle` in degrees, and the two flips. -/
structure TransformState where
  x : ℝ
  y : ℝ
  scale : ℝ
  angle : ℝ
  flipH : Bool
  flipV : Bool

/-- History snapshot as `saveState` builds it: the two overlay data URLs
(modelled by the decoded rasters) and a copy of the transform state. The
script's `{overlayData: null, originalData: null, state: null}` snapshot is
modelled as `none` at the `Option Snap` use sites. -/
structure Snap where
  overlayData : Raster
  originalData : Raster
  state : TransformState

/-- The script's mutable globals that the core operates on: background
dimensions, the two overlay references, the transform, the undo/redo stacks
(most recent first) and the gesture bookkeeping. -/
structure AppState where
  bg : Option (ℝ × ℝ)
  overlayImg : Option Raster
  overlayOriginalImg : Option Raster
  overlayState : TransformState
  undoStack : List (Option Snap)
  redoStack : List (Option Snap)
  cropMode : Bool
  cropping : Bool
  cropStart : Option (ℝ × ℝ)
  cropEnd : Option (ℝ × ℝ)
  dragging : Bool
  dragData : ℝ × ℝ
  resizing : Bool
  resizeHandle : ℤ

/-- The state of the globals when the script starts. -/
def initState : AppState where
  bg := none
  overlayImg := none
  overlayOriginalImg := none
  overlayState := ⟨0, 0, 1, 0, false, false⟩
  undoStack := []
  redoStack := []
  cropMode := false
  cropping := false
  cropStart := none
  cropEnd := none
  dragging := false
  dragData := (0, 0)
  resizing := false
  resizeHandle := -1

/-- Snapshot of the current live state, as `undo`/`redo` push it: the live
triple when an overlay is loaded, the `{null, null, null}` snapshot
otherwise. -/
def currentSnap (s : AppState) : Option Snap :=
  match s.overlayImg, s.overlayOriginalImg with
  | some oi, some oo => some ⟨oi, oo, s.overlayState⟩
  | _, _ => none

/-- The script's `saveState` (lines 73-82): when an overlay exists, push the
current snapshot onto the undo stack and clear the redo stack. -/
def saveState (s : AppState) : AppState :=
  match s.overlayImg, s.overlayOriginalImg with
  | some oi, some oo =>
      { s with undoStack := some ⟨oi, oo, s.overlayState⟩ :: s.undoStack, redoStack := [] }
  | _, _ => s

/-- The script's `undo` (lines 87-118), with the decode in `img.onload`
completing immediately: push the current live state (or the null snapshot)
onto the redo stack, pop the undo stack, and install the popped snapshot;
a non-null snapshot installs its raster as both overlay references. -/
def undoA (s : AppState) : AppState :=
  match s.undoStack with
  | [] => s
  | prev :: rest =>
    let s1 := { s with redoStack := currentSnap s :: s.redoStack, undoStack := rest }
    match prev with
    | some p =>
        { s1 with overlayImg := some p.overlayData, overlayOriginalImg := some p.overlayData,
                  overlayState := p.state }
    | none => { s1 with overlayImg := none, overlayOriginalImg := none }

/-- The script's `redo` (lines 123-153), symmetric to `undo`. -/
def redoA (s : AppState) : AppState :=
  match s.redoStack with
  | [] => s
  | next :: rest =>
    let s1 := { s with undoStack := currentSnap s :: s.undoStack, redoStack := rest }
    match next with
    | some p =>
        { s1 with overlayImg := some p.overlayData, overlayOriginalImg := some p.overlayData,
                  overlayState := p.state }
    | none => { s1 with overlayImg := none, overlayOriginalImg := none }

/-! ## Button and input handlers -/

/-- Background load completion (lines 349-378): store the new dimensions
and, when an overlay exists, refit its scale and clamp its position. -/
noncomputable def loadBgEvt (s : AppState) (bw bh : ℝ) : AppState :=
  match s.overlayImg with
  | none => { s with bg := some (bw, bh) }
  | some ov =>
    let sc := min (bw / (ov.width : ℝ)) (min (bh / (ov.height : ℝ)) 1)
    { s with bg := some (bw, bh),
             overlayState := { s.overlayState with
               scale := sc,
               x := min s.overlayState.x (bw - (ov.width : ℝ) * sc),
               y := min s.overlayState.y (bh - (ov.height : ℝ) * sc) } }

/-- Overlay load completion (lines 381-424): key the raw raster, install it
as both overlay references, fit it to the background, reset crop state,
clear both history stacks and save the initial state. -/
noncomputable def loadOverlayEvt (s : AppState) (raw : Raster) : AppState :=
  match s.bg with
  | none => s
  | some bgd =>
    let rgba := applyGreyKey raw
    let sc := min (bgd.1 / (rgba.width : ℝ)) (min (bgd.2 / (rgba.height : ℝ)) 1)
    saveState
      { s with overlayImg := some rgba, overlayOriginalImg := some rgba,
               overlayState :=
                 { x := min 20 (bgd.1 - (rgba.width : ℝ) * sc),
                   y := min 20 (bgd.2 - (rgba.height : ℝ) * sc),
                   scale := sc, angle := 0, flipH := false, flipV := false },
               cropMode := false, cropping := false, cropStart := none, cropEnd := none,
               undoStack := [], redoStack := [] }

/-- Remove-overlay button (lines 427-444). -/
def removeOverlayEvt (s : AppState) : AppState :=
  { s with overlayImg := none, overlayOriginalImg := none,
           cropMode := false, cropping := false, cropStart := none, cropEnd := none,
           undoStack := [], redoStack := [] }

/-- New-session button (lines 460-486); the gesture-in-progress flags are
not reset by the script. -/
def newSessionEvt (s : AppState) : AppState :=
  { s with bg := none, overlayImg := none, overlayOriginalImg := none,
           overlayState := ⟨0, 0, 1, 0, false, false⟩, dragData := (0, 0),
           cropMode := false, cropping := false, cropStart := none, cropEnd := none,
           undoStack := [], redoStack := [] }

/-- Smaller button (lines 489-503): shrink by 1/1.10 and re-clamp the
position against the background when one is loaded. -/
noncomputable def smallerEvt (s : AppState) : AppState :=
  match s.overlayImg with
  | none => s
  | some ov =>
    let s1 := saveState s
    let sc := s1.overlayState.scale * (1 / 1.10)
    let w := (ov.width : ℝ) * |sc|
    let h := (ov.height : ℝ) * |sc|
    match s1.bg with
    | some bgd =>
        { s1 with overlayState := { s1.overlayState with
            scale := sc,
            x := min s1.overlayState.x (bgd.1 - w),
            y := min s1.overlayState.y (bgd.2 - h) } }
    | none => { s1 with overlayState := { s1.overlayState with scale := sc } }

/-- Bigger button (lines 504-516): grow by 1.10 unless the grown overlay
would exceed the background (the state was already saved for undo). -/
noncomputable def biggerEvt (s : AppState) : AppState :=
  match s.overlayImg with
  | none => s
  | some ov =>
    let s1 := saveState s
    let next := s1.overlayState.scale * 1.10
    let w := (ov.width : ℝ) * |next|
    let h := (ov.height : ℝ) * |next|
    match s1.bg with
    | some bgd =>
        if bgd.1 < w ∨ bgd.2 < h then s1
        else { s1 with overlayState := { s1.overlayState with scale := next } }
    | none => { s1 with overlayState := { s1.overlayState with scale := next } }

/-- Angle reached by the absolute angle input (lines 519-528): a single
conditional wrap in each direction, not the `normalizeAngle` loop. -/
noncomputable def setAngleOneShot (v : ℝ) : ℝ :=
  let a1 := if 180 < v then v - 360 else v
  if a1 < -180 then a1 + 360 else a1

/-- Absolute angle input handler: save state, then store the wrapped value. -/
noncomputable def setAngleEvt (s : AppState) (v : ℝ) : AppState :=
  let s1 := saveState s
  { s1 with overlayState := { s1.overlayState with angle := setAngleOneShot v } }

/-- Rotate −5° button (lines 531-537). -/
noncomputable def rotM5Evt (s : AppState) : AppState :=
  let s1 := saveState s
  { s1 with overlayState := { s1.overlayState with
      angle := normalizeAngle (s1.overlayState.angle - 5) } }

/-- Rotate +5° button (lines 538-544). -/
noncomputable def rotP5Evt (s : AppState) : AppState :=
  let s1 := saveState s
  { s1 with overlayState := { s1.overlayState with
      angle := normalizeAngle (s1.overlayState.angle + 5) } }

/-- Rotation reset button (lines 545-551). -/
def rotResetEvt (s : AppState) : AppState :=
  let s1 := saveState s
  { s1 with overlayState := { s1.overlayState with angle := 0 } }

/-- Horizontal flip button (lines 554-559). -/
def flipHEvt (s : AppState) : AppState :=
  let s1 := saveState s
  { s1 with overlayState := { s1.overlayState with flipH := !s1.overlayState.flipH } }

/-- Vertical flip button (lines 560-565). -/
def flipVEvt (s : AppState) : AppState :=
  let s1 := saveState s
  { s1 with overlayState := { s1.overlayState with flipV := !s1.overlayState.flipV } }

/-- Crop button (lines 187-208): toggle crop mode; entering saves state for
undo and resets any previous selection. -/
def cropToggleEvt (s : AppState) : AppState :=
  match s.overlayImg with
  | none => s
  | some _ =>
    if s.cropMode then
      { s with cropMode := false, cropping := false, cropStart := none, cropEnd := none }
    else
      let s1 := saveState s
      { s1 with cropMode := true, cropping := false, cropStart := none, cropEnd := none }

/-! ## Pointer events (script.js lines 576-756) -/

/-- Pointer-down handler (lines 576-649). After the guard it always calls
`saveState`, then maps the pointer into rotated local space and classifies
the hit: crop-selection start or crop-mode cancel when crop mode is armed,
else corner resize handles in order 0..3, else drag start, else nothing.
In crop mode the script reads `overlayOriginalImg.width` without a null
check; call sites only arm crop mode with an overlay loaded, so the missing
reference is modelled as leaving the state (the script would throw). -/
noncomputable def pointerdownEvt (s : AppState) (px py : ℝ) : AppState :=
  match s.overlayImg, s.bg with
  | some ov, some _ =>
    let s1 := saveState s
    let w := (ov.width : ℝ) * |s1.overlayState.scale|
    let h := (ov.height : ℝ) * |s1.overlayState.scale|
    let cx := s1.overlayState.x + w / 2
    let cy := s1.overlayState.y + h / 2
    let dx := px - cx
    let dy := py - cy
    let angleRad := -s1.overlayState.angle * Real.pi / 180
    let localX := dx * Real.cos angleRad - dy * Real.sin angleRad
    let localY := dx * Real.sin angleRad + dy * Real.cos angleRad
    if s1.cropMode then
      match s1.overlayOriginalImg with
      | some oo =>
        let ux := localX / s1.overlayState.scale
        let uy := localY / s1.overlayState.scale
        if |ux| ≤ (oo.width : ℝ) / 2 ∧ |uy| ≤ (oo.height : ℝ) / 2 then
          { s1 with cropping := true, cropStart := some (ux, uy), cropEnd := some (ux, uy) }
        else
          { s1 with cropMode := false, cropping := false, cropStart := none, cropEnd := none }
      | none => s1
    else
      if |localX - (-(w / 2))| ≤ 10 ∧ |localY - (-(h / 2))| ≤ 10 then
        { s1 with resizing := true, resizeHandle := 0, dragging := false }
      else if |localX - w / 2| ≤ 10 ∧ |localY - (-(h / 2))| ≤ 10 then
        { s1 with resizing := true, resizeHandle := 1, dragging := false }
      else if |localX - w / 2| ≤ 10 ∧ |localY - h / 2| ≤ 10 then
        { s1 with resizing := true, resizeHandle := 2, dragging := false }
      else if |localX - (-(w / 2))| ≤ 10 ∧ |localY - h / 2| ≤ 10 then
        { s1 with resizing := true, resizeHandle := 3, dragging := false }
      else if |localX| ≤ w / 2 ∧ |localY| ≤ h / 2 then
        { s1 with dragging := true, dragData := (localX, localY) }
      else s1
  | _, _ => s

/-- Pointer-move handler (lines 651-733): update the crop selection end, or
resize about the fixed centre, or drag by the stored anchor offset. -/
noncomputable def pointermoveEvt (s : AppState) (px py : ℝ) : AppState :=
  match s.overlayImg, s.bg with
  | some ov, some bgd =>
    let w := (ov.width : ℝ) * |s.overlayState.scale|
    let h := (ov.height : ℝ) * |s.overlayState.scale|
    let cx := s.overlayState.x + w / 2
    let cy := s.overlayState.y + h / 2
    let angleRad := s.overlayState.angle * Real.pi / 180
    if s.cropping then
      let angleR := -s.overlayState.angle * Real.pi / 180
      let localXS := (px - cx) * Real.cos angleR - (py - cy) * Real.sin angleR
      let localYS := (px - cx) * Real.sin angleR + (py - cy) * Real.cos angleR
      let ue : ℝ × ℝ := (localXS / s.overlayState.scale, localYS / s.overlayState.scale)
      { s with cropEnd := some ue }
    else if s.resizing then
      let localX := (px - cx) * Real.cos (-angleRad) - (py - cy) * Real.sin (-angleRad)
      let localY := (px - cx) * Real.sin (-angleRad) + (py - cy) * Real.cos (-angleRad)
      let scaleX := 2 * |localX| / (ov.width : ℝ)
      let scaleY := 2 * |localY| / (ov.height : ℝ)
      let maxScale := min (bgd.1 / (ov.width : ℝ)) (bgd.2 / (ov.height : ℝ))
      let ns1 := min (min scaleX scaleY) maxScale
      let newScale := if ns1 < 0.05 then 0.05 else ns1
      let newW := (ov.width : ℝ) * newScale
      let newH := (ov.height : ℝ) * newScale
      { s with overlayState := { s.overlayState with
          scale := newScale,
          x := max 0 (min (cx - newW / 2) (bgd.1 - newW)),
          y := max 0 (min (cy - newH / 2) (bgd.2 - newH)) } }
    else if s.dragging then
      let gx := s.dragData.1 * Real.cos angleRad - s.dragData.2 * Real.sin angleRad
      let gy := s.dragData.1 * Real.sin angleRad + s.dragData.2 * Real.cos angleRad
      { s with overlayState := { s.overlayState with
          x := max 0 (min (px - gx - w / 2) (bgd.1 - w)),
          y := max 0 (min (py - gy - h / 2) (bgd.2 - h)) } }
    else s
  | _, _ => s

/-- The script's `performCrop` (lines 844-917), with the decode of the
cropped buffer completing immediately. The function reads `bgImg` without a
null check; it only runs from pointer-up of a crop gesture, which requires
a background, so the missing background is modelled as leaving the state. -/
noncomputable def performCropApp (s : AppState) : AppState :=
  match s.cropStart, s.cropEnd, s.overlayOriginalImg with
  | some cs, some ce, some img =>
    match s.bg with
    | none => s
    | some bgd =>
      let oldW : ℝ := (img.width : ℝ)
      let oldH : ℝ := (img.height : ℝ)
      let x1 := min cs.1 ce.1
      let x2 := max cs.1 ce.1
      let y1 := min cs.2 ce.2
      let y2 := max cs.2 ce.2
      let x1f := if s.overlayState.flipH then -x2 else x1
      let x2f := if s.overlayState.flipH then -x1 else x2
      let y1f := if s.overlayState.flipV then -y2 else y1
      let y2f := if s.overlayState.flipV then -y1 else y2
      let u1 : ℤ := max 0 ⌊x1f + oldW / 2⌋
      let u2 : ℤ := min (img.width : ℤ) ⌈x2f + oldW / 2⌉
      let v1 : ℤ := max 0 ⌊y1f + oldH / 2⌋
      let v2 : ℤ := min (img.height : ℤ) ⌈y2f + oldH / 2⌉
      let wCrop := u2 - u1
      let hCrop := v2 - v1
      if wCrop ≤ 0 ∨ hCrop ≤ 0 then
        { s with cropStart := none, cropEnd := none }
      else
        let newR : Raster :=
          ⟨wCrop.toNat, hCrop.toNat, fun i j => img.pix (u1.toNat + i) (v1.toNat + j)⟩
        let scale := s.overlayState.scale
        let angleRad := s.overlayState.angle * Real.pi / 180
        let deltaX := (x1f + x2f) / 2 * scale
        let deltaY := (y1f + y2f) / 2 * scale
        let shiftX := deltaX * Real.cos angleRad - deltaY * Real.sin angleRad
        let shiftY := deltaX * Real.sin angleRad + deltaY * Real.cos angleRad
        let oldCentreX := s.overlayState.x + oldW * scale / 2
        let oldCentreY := s.overlayState.y + oldH * scale / 2
        let newWidthScaled := (wCrop : ℝ) * scale
        let newHeightScaled := (hCrop : ℝ) * scale
        let newX := max 0 (min (oldCentreX + shiftX - newWidthScaled / 2) (bgd.1 - newWidthScaled))
        let newY := max 0 (min (oldCentreY + shiftY - newHeightScaled / 2) (bgd.2 - newHeightScaled))
        { s with overlayImg := some newR, overlayOriginalImg := some newR,
                 overlayState := { s.overlayState with x := newX, y := newY },
                 cropStart := none, cropEnd := none }
  | _, _, _ => s

/-- Pointer-up handler (lines 735-756): finalize a crop gesture, otherwise
end a drag and/or a resize. -/
noncomputable def pointerupEvt (s : AppState) : AppState :=
  if s.cropping then
    performCropApp { s with cropping := false, cropMode := false }
  else
    let s1 := if s.dragging then { s with dragging := false } else s
    if s1.resizing then { s1 with resizing := false, resizeHandle := -1 } else s1

/-! ## Reachable states -/

/-- States reachable from the initial globals through the modelled handlers. -/
inductive Reachable : AppState → Prop where
  | init : Reachable initState
  | loadBg {s} (bw bh : ℝ) : Reachable s → Reachable (loadBgEvt s bw bh)
  | loadOverlay {s} (raw : Raster) : Reachable s → Reachable (loadOverlayEvt s raw)
  | removeOverlay {s} : Reachable s → Reachable (removeOverlayEvt s)
  | newSession {s} : Reachable s → Reachable (newSessionEvt s)
  | undoStep {s} : Reachable s → Reachable (undoA s)
  | redoStep {s} : Reachable s → Reachable (redoA s)
  | smaller {s} : Reachable s → Reachable (smallerEvt s)
  | bigger {s} : Reachable s → Reachable (biggerEvt s)
  | setAngle {s} (v : ℝ) : Reachable s → Reachable (setAngleEvt s v)
  | rotM5 {s} : Reachable s → Reachable (rotM5Evt s)
  | rotP5 {s} : Reachable s → Reachable (rotP5Evt s)
  | rotReset {s} : Reachable s → Reachable (rotResetEvt s)
  | flipH {s} : Reachable s → Reachable (flipHEvt s)
  | flipV {s} : Reachable s → Reachable (flipVEvt s)
  | cropToggle {s} : Reachable s → Reachable (cropToggleEvt s)
  | pointerdown {s} (px py : ℝ) : Reachable s → Reachable (pointerdownEvt s px py)
  | pointermove {s} (px py : ℝ) : Reachable s → Reachable (pointermoveEvt s px py)
  | pointerup {s} : Reachable s → Reachable (pointerupEvt s)

/-! ## Spec-side definitions

Written from the specification's wording, to be compared with the handler
definitions above (which are translated from the source). -/

/-- Rotation of a plane vector by an angle given in degrees (positive =
the screen's clockwise-positive rotation used throughout the spec). -/
noncomputable def rotByDeg (deg : ℝ) (p : ℝ × ℝ) : ℝ × ℝ :=
  (p.1 * Real.cos (deg * Real.pi / 180) - p.2 * Real.sin (deg * Real.pi / 180),
   p.1 * Real.sin (deg * Real.pi / 180) + p.2 * Real.cos (deg * Real.pi / 180))

/-- Clamp a value into the interval `[lo, hi]` (lower bound applied last,
as in the spec's scale clamp). -/
noncomputable def clampI (lo hi v : ℝ) : ℝ := max lo (min hi v)

/-- Clamp an origin coordinate into `[0, hi]` (spec: clamp origin into
background bounds; collapses towards `0` when `hi` is negative). -/
noncomputable def clampOrigin (hi v : ℝ) : ℝ := max 0 (min v hi)

/-- Sub-rectangle `[u, u+w) × [v, v+h)` of a raster. -/
def subRect (img : Raster) (u v w h : ℕ) : Raster :=
  ⟨w, h, fun i j => img.pix (u + i) (v + j)⟩

/-- Left edge of the normalized, un-flipped crop selection:
`x1 ≤ x2` normalization followed by `(x1,x2) ← (-x2,-x1)` under `flipH`. -/
noncomputable def selX1 (cs ce : ℝ × ℝ) (st : TransformState) : ℝ :=
  if st.flipH then -(max cs.1 ce.1) else min cs.1 ce.1

/-- Right edge of the normalized, un-flipped crop selection. -/
noncomputable def selX2 (cs ce : ℝ × ℝ) (st : TransformState) : ℝ :=
  if st.flipH then -(min cs.1 ce.1) else max cs.1 ce.1

/-- Top edge of the normalized, un-flipped crop selection. -/
noncomputable def selY1 (cs ce : ℝ × ℝ) (st : TransformState) : ℝ :=
  if st.flipV then -(max cs.2 ce.2) else min cs.2 ce.2

/-- Bottom edge of the normalized, un-flipped crop selection. -/
noncomputable def selY2 (cs ce : ℝ × ℝ) (st : TransformState) : ℝ :=
  if st.flipV then -(min cs.2 ce.2) else max cs.2 ce.2

/-- Crop pixel index `u1 = max(0, floor(x1 + width/2))`. -/
noncomputable def idxU1 (cs ce : ℝ × ℝ) (st : TransformState) (w : ℕ) : ℤ :=
  max 0 ⌊selX1 cs ce st + (w : ℝ) / 2⌋

/-- Crop pixel index `u2 = min(width, ceil(x2 + width/2))`. -/
noncomputable def idxU2 (cs ce : ℝ × ℝ) (st : TransformState) (w : ℕ) : ℤ :=
  min (w : ℤ) ⌈selX2 cs ce st + (w : ℝ) / 2⌉

/-- Crop pixel index `v1 = max(0, floor(y1 + height/2))`. -/
noncomputable def idxV1 (cs ce : ℝ × ℝ) (st : TransformState) (h : ℕ) : ℤ :=
  max 0 ⌊selY1 cs ce st + (h : ℝ) / 2⌋

/-- Crop pixel index `v2 = min(height, ceil(y2 + height/2))`. -/
noncomputable def idxV2 (cs ce : ℝ × ℝ) (st : TransformState) (h : ℕ) : ℤ :=
  min (h : ℤ) ⌈selY2 cs ce st + (h : ℝ) / 2⌉

/-- Crop anchoring transform per the spec: rotate `cropCenter * scale` by
`+angleDegrees` to a background-space shift, add it to the old visual
centre, subtract the new scaled half-extents and clamp the origin into the
background bounds; scale, angle and flips unchanged. -/
noncomputable def specCropTransform (cs ce : ℝ × ℝ) (st : TransformState) (w h : ℕ)
    (bgW bgH : ℝ) : TransformState :=
  let cropCenter := ((selX1 cs ce st + selX2 cs ce st) / 2, (selY1 cs ce st + selY2 cs ce st) / 2)
  let shift := rotByDeg st.angle (cropCenter.1 * st.scale, cropCenter.2 * st.scale)
  let oldCentre := (st.x + (w : ℝ) * st.scale / 2, st.y + (h : ℝ) * st.scale / 2)
  let newW := ((idxU2 cs ce st w - idxU1 cs ce st w : ℤ) : ℝ) * st.scale
  let newH := ((idxV2 cs ce st h - idxV1 cs ce st h : ℤ) : ℝ) * st.scale
  { st with x := clampOrigin (bgW - newW) (oldCentre.1 + shift.1 - newW / 2),
            y := clampOrigin (bgH - newH) (oldCentre.2 + shift.2 - newH / 2) }

/-- Inverse rotation of the pointer offset from the box centre into local
space (spec: "the pointer mapped into local space by inverse rotation"). -/
noncomputable def toLocal (st : TransformState) (center p : ℝ × ℝ) : ℝ × ℝ :=
  rotByDeg (-st.angle) (p.1 - center.1, p.2 - center.2)

/-- Range invariant for the stored rotation angle. -/
def angleInRange (a : ℝ) : Prop := -180 ≤ a ∧ a ≤ 180

/-- History invariant of reachable states used for the undo/redo round
trip: every undo-stack entry is a non-null snapshot whose two data URLs
agree, the undo stack is empty when no overlay is loaded, and the two live
overlay references agree. -/
def HistoryInv (s : AppState) : Prop :=
  (∀ sn ∈ s.undoStack, ∃ p : Snap, sn = some p ∧ p.originalData = p.overlayData) ∧
  (s.overlayImg = none → s.undoStack = []) ∧
  s.overlayOriginalImg = s.overlayImg

/-- Full history invariant: both stacks hold only non-null snapshots with
matching data URLs, both stacks are empty when no overlay is loaded, and
the live overlay references agree. It holds in every reachable state and
implies `HistoryInv`. -/
def FullInv (s : AppState) : Prop :=
  (∀ sn ∈ s.undoStack, ∃ p : Snap, sn = some p ∧ p.originalData = p.overlayData) ∧
  (∀ sn ∈ s.redoStack, ∃ p : Snap, sn = some p ∧ p.originalData = p.overlayData) ∧
  (s.overlayImg = none → s.undoStack = [] ∧ s.redoStack = []) ∧
  s.overlayOriginalImg = s.overlayImg

/-! ## Concrete example states for the witnesses -/

/-- Tiny raster used by concrete witnesses. -/
def exRaster : Raster := ⟨1, 1, fun _ _ => ⟨0, 0, 0, 0⟩⟩

/-- Concrete state with one undo entry, for the round-trip witness. -/
def exHistState : AppState :=
  { initState with
      overlayImg := some exRaster, overlayOriginalImg := some exRaster,
      undoStack := [some ⟨exRaster, exRaster, ⟨0, 0, 1, 0, false, false⟩⟩] }

/-- Concrete state for the pointer-down witness: background and overlay
loaded, pointer far away from the overlay. -/
noncomputable def exDownState : AppState :=
  { initState with bg := some (200, 100),
                   overlayImg := some exRaster, overlayOriginalImg := some exRaster }

/-- Overlay raster of the drag scenario (intrinsic size 100 × 50). -/
def ovDrag : Raster := ⟨100, 50, fun _ _ => ⟨0, 0, 0, 0⟩⟩

/-- Drag scenario state: scale 1, angle 0, no flips, anchor offset (10, 5),
background 400 × 300. -/
noncomputable def dragScenarioState : AppState :=
  { initState with bg := some (400, 300),
                   overlayImg := some ovDrag, overlayOriginalImg := some ovDrag,
                   dragging := true, dragData := (10, 5) }

/-- Raster used by the crop witnesses. -/
def img4 : Raster := ⟨4, 4, fun _ _ => ⟨0, 0, 0, 0⟩⟩

/-- Concrete committing crop: selection `(-1,-1)..(1,1)` on a 4×4 overlay
at scale 1, angle 0, no flips, over a 10×10 background. -/
noncomputable def exCropState : AppState :=
  { initState with bg := some (10, 10), overlayImg := some img4,
                   overlayOriginalImg := some img4,
                   cropStart := some (-1, -1), cropEnd := some (1, 1) }

/-- Concrete aborting crop: degenerate selection at `(10,10)`, fully
outside a 4×4 overlay. -/
noncomputable def exAbortState : AppState :=
  { initState with bg := some (10, 10), overlayImg := some img4,
                   overlayOriginalImg := some img4,
                   cropStart := some (10, 10), cropEnd := some (10, 10) }

/-- Overlay raster for the resize witness. -/
def ovResize : Raster := ⟨4, 2, fun _ _ => ⟨0, 0, 0, 0⟩⟩

/-- Concrete resize gesture: 4×2 overlay at scale 1, angle 0, origin (3,4),
background 10×10, pointer at (7,6). -/
noncomputable def exResizeState : AppState :=
  { initState with bg := some (10, 10), overlayImg := some ovResize,
                   overlayOriginalImg := some ovResize,
                   overlayState := ⟨3, 4, 1, 0, false, false⟩, resizing := true }

/-! ## Helper lemmas -/

theorem normLoop1_of_le {a : ℝ} (h : a ≤ 180) : normLoop1 a = a := by
  rw [normLoop1]
  simp [not_lt.mpr h]

theorem normLoop1_of_gt {a : ℝ} (h : 180 < a) : normLoop1 a = normLoop1 (a - 360) := by
  rw [normLoop1]
  simp [h]

theorem normLoop2_of_ge {a : ℝ} (h : -180 ≤ a) : normLoop2 a = a := by
  rw [normLoop2]
  simp [not_lt.mpr h]

theorem normLoop2_of_lt {a : ℝ} (h : a < -180) : normLoop2 a = normLoop2 (a + 360) := by
  rw [normLoop2]
  simp [h]

theorem normLoop1_le (a : ℝ) : normLoop1 a ≤ 180 ∧ (-180 < normLoop1 a ∨ normLoop1 a = a) := by
  induction a using normLoop1.induct with
  | case1 a h ih =>
    rw [normLoop1_of_gt h]
    refine ⟨ih.1, ?_⟩
    rcases ih.2 with h2 | h2
    · exact Or.inl h2
    · exact Or.inl (by rw [h2]; linarith)
  | case2 a h =>
    rw [normLoop1_of_le (not_lt.mp h)]
    exact ⟨not_lt.mp h, Or.inr rfl⟩

theorem normLoop2_ge (a : ℝ) : -180 ≤ normLoop2 a ∧ (normLoop2 a < 180 ∨ normLoop2 a = a) := by
  induction a using normLoop2.induct with
  | case1 a h ih =>
    rw [normLoop2_of_lt h]
    refine ⟨ih.1, ?_⟩
    rcases ih.2 with h2 | h2
    · exact Or.inl h2
    · exact Or.inl (by rw [h2]; linarith)
  | case2 a h =>
    rw [normLoop2_of_ge (not_lt.mp h)]
    exact ⟨not_lt.mp h, Or.inr rfl⟩

theorem normalizeAngle_mem (a : ℝ) : -180 ≤ normalizeAngle a ∧ normalizeAngle a ≤ 180 := by
  have h1 := normLoop1_le a
  have h2 := normLoop2_ge (normLoop1 a)
  refine ⟨h2.1, ?_⟩
  rcases h2.2 with h | h
  · exact le_of_lt (by simpa [normalizeAngle] using h)
  · simpa [normalizeAngle, h] using h1.1

theorem normalizeAngle_of_mem {a : ℝ} (h1 : -180 ≤ a) (h2 : a ≤ 180) :
    normalizeAngle a = a := by
  rw [normalizeAngle, normLoop1_of_le h2, normLoop2_of_ge h1]

theorem lut_of_le {d : ℕ} (h : d ≤ 22) : lut d = 0 := by
  have ht : d ≤ tol := by simpa [tol] using h
  simp only [lut, if_pos ht]
  decide

theorem lut_of_ge {d : ℕ} (h : 24 ≤ d) : lut d = 255 := by
  have h1 : ¬ d ≤ tol := by simp [tol]; omega
  have h2 : tol + ramp ≤ d := by simp [tol, ramp]; omega
  simp only [lut, if_neg h1, if_pos h2]
  decide

theorem lut_23 : lut 23 = 128 := by
  have h1 : ¬ (23 : ℕ) ≤ tol := by simp [tol]
  have h2 : ¬ tol + ramp ≤ 23 := by simp [tol, ramp]
  simp only [lut, if_neg h1, if_neg h2, jsRound, uint8clamp, tol, ramp]
  norm_num
  rfl

theorem lut_le_255 (d : ℕ) : lut d ≤ 255 := by
  simp only [lut]
  split_ifs
  · decide
  · decide
  · simp only [uint8clamp]
    omega

theorem lut_monotone {d1 d2 : ℕ} (h : d1 ≤ d2) : lut d1 ≤ lut d2 := by
  rcases le_or_lt d2 22 with h2 | h2
  · rw [lut_of_le (le_trans h h2), lut_of_le h2]
  · rcases le_or_lt 24 d2 with h3 | h3
    · rw [lut_of_ge h3]
      exact lut_le_255 d1
    · have hd2 : d2 = 23 := by omega
      subst hd2
      rcases le_or_lt d1 22 with h4 | h4
      · rw [lut_of_le h4, lut_23]
        omega
      · have hd1 : d1 = 23 := by omega
        subst hd1
        exact le_refl _

/-- Fields of `saveState s` other than the history stacks are those of `s`. -/
theorem saveState_eq_stacksOnly (s : AppState) :
    (saveState s).bg = s.bg ∧ (saveState s).overlayImg = s.overlayImg ∧
    (saveState s).overlayOriginalImg = s.overlayOriginalImg ∧
    (saveState s).overlayState = s.overlayState ∧
    (saveState s).cropMode = s.cropMode ∧ (saveState s).cropping = s.cropping ∧
    (saveState s).cropStart = s.cropStart ∧ (saveState s).cropEnd = s.cropEnd ∧
    (saveState s).dragging = s.dragging ∧ (saveState s).dragData = s.dragData ∧
    (saveState s).resizing = s.resizing ∧ (saveState s).resizeHandle = s.resizeHandle := by
  rcases s with ⟨bg, oi, oo, st, us, rs, cm, cp, c1, c2, dg, dd, rz, rh⟩
  rcases oi with _ | oi <;> rcases oo with _ | oo <;>
    simp [saveState]

/-- C8 helper: evaluation of `normalizeAngle` at 270. -/
theorem normalizeAngle_270 : normalizeAngle 270 = -90 := by
  have e1 : normLoop1 (270 : ℝ) = normLoop1 (270 - 360) := normLoop1_of_gt (by norm_num)
  have e2 : (270 : ℝ) - 360 = -90 := by norm_num
  rw [normalizeAngle, e1, e2, normLoop1_of_le (by norm_num), normLoop2_of_ge (by norm_num)]

/-- C8 helper: evaluation of `normalizeAngle` at −270. -/
theorem normalizeAngle_neg_270 : normalizeAngle (-270) = 90 := by
  have e1 : normLoop2 ((-270) : ℝ) = normLoop2 (-270 + 360) := normLoop2_of_lt (by norm_num)
  have e2 : ((-270) : ℝ) + 360 = 90 := by norm_num
  rw [normalizeAngle, normLoop1_of_le (by norm_num), e1, e2, normLoop2_of_ge (by norm_num)]

/-! ## Claim theorems -/

/-- C8: `normalizeAngle` always lands in `[-180, 180]`, is idempotent, and
maps `270` to `-90` and `-270` to `90`. -/
theorem normalizeAngle_idempotent_range :
    (∀ a : ℝ, -180 ≤ normalizeAngle a ∧ normalizeAngle a ≤ 180) ∧
    (∀ a : ℝ, normalizeAngle (normalizeAngle a) = normalizeAngle a) ∧
    normalizeAngle 270 = -90 ∧ normalizeAngle (-270) = 90 := by
  refine ⟨normalizeAngle_mem, fun a => ?_, normalizeAngle_270, normalizeAngle_neg_270⟩
  rcases normalizeAngle_mem a with ⟨h1, h2⟩
  exact normalizeAngle_of_mem h1 h2

/-- C5: chroma-key extraction keeps dimensions and RGB, rewrites alpha as a
pure function of the distance `d` from the key colour: `0` for `d ≤ 22`,
`255` for `d ≥ 24`, `round(255·(d-22)/2)` in between, and the alpha ramp is
non-decreasing in `d`. -/
theorem applyGreyKey_postcondition :
    (∀ img : Raster,
        (applyGreyKey img).width = img.width ∧ (applyGreyKey img).height = img.height) ∧
    (∀ (img : Raster) (i j : ℕ),
        ((applyGreyKey img).pix i j).r = (img.pix i j).r ∧
        ((applyGreyKey img).pix i j).g = (img.pix i j).g ∧
        ((applyGreyKey img).pix i j).b = (img.pix i j).b) ∧
    (∀ (img : Raster) (i j : ℕ),
        ((applyGreyKey img).pix i j).a = lut (maxDiff (img.pix i j))) ∧
    (∀ d : ℕ, d ≤ 22 → lut d = 0) ∧
    (∀ d : ℕ, 24 ≤ d → lut d = 255) ∧
    (∀ d : ℕ, 22 < d → d < 24 → (lut d : ℤ) = ⌊(255 * ((d : ℚ) - 22)) / 2 + 1 / 2⌋) ∧
    (∀ d1 d2 : ℕ, d1 ≤ d2 → lut d1 ≤ lut d2) := by
  refine ⟨fun img => ⟨rfl, rfl⟩, fun img i j => ⟨rfl, rfl, rfl⟩, fun img i j => rfl,
    fun d h => lut_of_le h, fun d h => lut_of_ge h, fun d h1 h2 => ?_,
    fun d1 d2 h => lut_monotone h⟩
  have hd : d = 23 := by omega
  subst hd
  rw [lut_23]
  norm_num

/-- C7 counterexample: the absolute angle input at `541` stores `181`,
outside `[-180, 180]`, so the range invariant does not hold for every
finite input value. -/
theorem setAngle_out_of_range :
    (setAngleEvt initState 541).overlayState.angle = 181 ∧
    ¬ angleInRange ((setAngleEvt initState 541).overlayState.angle) := by
  have h : (setAngleEvt initState 541).overlayState.angle = 181 := by
    simp [setAngleEvt, saveState, initState, setAngleOneShot]
    norm_num
  refine ⟨h, ?_⟩
  rw [h]
  intro hr
  have h2 := hr.2
  norm_num at h2

/-- C7 (amended): the absolute angle input keeps the stored angle in
`[-180, 180]` for every input value in `[-540, 540]` (the handler applies a
single conditional wrap in each direction, not the `normalizeAngle` loop),
and the ±5° rotation buttons and the reset button keep it in `[-180, 180]`
from any starting angle. -/
theorem angle_range_after_mutation :
    (∀ (s : AppState) (v : ℝ), -540 ≤ v → v ≤ 540 →
        angleInRange ((setAngleEvt s v).overlayState.angle)) ∧
    (∀ s : AppState, angleInRange ((rotM5Evt s).overlayState.angle)) ∧
    (∀ s : AppState, angleInRange ((rotP5Evt s).overlayState.angle)) ∧
    (∀ s : AppState, angleInRange ((rotResetEvt s).overlayState.angle)) := by
  refine ⟨fun s v h1 h2 => ?_, fun s => ?_, fun s => ?_, fun s => ?_⟩
  · have he : (setAngleEvt s v).overlayState.angle = setAngleOneShot v := by
      simp [setAngleEvt]
    rw [he]
    simp only [setAngleOneShot, angleInRange]
    split_ifs <;> constructor <;> linarith
  · have he : (rotM5Evt s).overlayState.angle =
        normalizeAngle ((saveState s).overlayState.angle - 5) := by
      simp [rotM5Evt]
    rw [he]
    exact normalizeAngle_mem _
  · have he : (rotP5Evt s).overlayState.angle =
        normalizeAngle ((saveState s).overlayState.angle + 5) := by
      simp [rotP5Evt]
    rw [he]
    exact normalizeAngle_mem _
  · have he : (rotResetEvt s).overlayState.angle = 0 := by
      simp [rotResetEvt]
    rw [he]
    constructor <;> norm_num


/-! ## History lemmas -/

theorem undoA_empty {s : AppState} (h : s.undoStack = []) : undoA s = s := by
  rcases s with ⟨bg, oi, oo, st, us, rs, cm, cp, c1, c2, dg, dd, rz, rh⟩
  subst h
  rfl

theorem undoA_push_pop (s : AppState) (prev : Option Snap) (rest : List (Option Snap))
    (h : s.undoStack = prev :: rest) :
    (undoA s).redoStack = currentSnap s :: s.redoStack ∧ (undoA s).undoStack = rest := by
  rcases s with ⟨bg, oi, oo, st, us, rs, cm, cp, c1, c2, dg, dd, rz, rh⟩
  subst h
  rcases prev with _ | p <;> simp [undoA, currentSnap]

theorem historyInv_undoA {s : AppState} (h : HistoryInv s) : HistoryInv (undoA s) := by
  rcases s with ⟨bg, oi, oo, st, us, rs, cm, cp, c1, c2, dg, dd, rz, rh⟩
  obtain ⟨h1, h2, h3⟩ := h
  rcases us with _ | ⟨prev, rest⟩
  · exact ⟨h1, h2, h3⟩
  · obtain ⟨p, hp, hpd⟩ := h1 prev (List.mem_cons_self _ _)
    subst hp
    refine ⟨?_, ?_, ?_⟩
    · intro sn hsn
      refine h1 sn (List.mem_cons_of_mem _ ?_)
      simpa [undoA] using hsn
    · intro hnone
      simp [undoA] at hnone
    · simp [undoA]

theorem redoA_undoA {s : AppState} (h : HistoryInv s) (hne : s.undoStack ≠ []) :
    redoA (undoA s) = s := by
  rcases s with ⟨bg, oi, oo, st, us, rs, cm, cp, c1, c2, dg, dd, rz, rh⟩
  obtain ⟨h1, h2, h3⟩ := h
  rcases us with _ | ⟨prev, rest⟩
  · exact absurd rfl hne
  · obtain ⟨p, hp, hpd⟩ := h1 prev (List.mem_cons_self _ _)
    subst hp
    rcases oi with _ | ov
    · have h4 := h2 rfl
      simp at h4
    · simp only at h3
      subst h3
      rcases p with ⟨pd, po, ps⟩
      simp only at hpd
      subst hpd
      rfl

theorem roundtrip_iterate :
    ∀ (k : ℕ) (s : AppState), HistoryInv s → k ≤ s.undoStack.length →
      redoA^[k] (undoA^[k] s) = s := by
  intro k
  induction k with
  | zero =>
    intro s _ _
    simp
  | succ n ih =>
    intro s hInv hlen
    have hne : s.undoStack ≠ [] := by
      intro h0
      rw [h0] at hlen
      simp at hlen
    have hinv2 := historyInv_undoA hInv
    have hlen2 : n ≤ (undoA s).undoStack.length := by
      rcases hu : s.undoStack with _ | ⟨prev, rest⟩
      · exact absurd hu hne
      · rw [(undoA_push_pop s prev rest hu).2]
        rw [hu, List.length_cons] at hlen
        omega
    calc redoA^[n + 1] (undoA^[n + 1] s)
        = redoA (redoA^[n] (undoA^[n] (undoA s))) := by
          rw [Function.iterate_succ_apply undoA n s, Function.iterate_succ_apply']
      _ = redoA (undoA s) := by rw [ih (undoA s) hinv2 hlen2]
      _ = s := redoA_undoA hInv hne

/-- C1: history round trip. `undo` is a no-op on an empty undo stack;
otherwise it pushes the current live state (`currentSnap` yields the
`{null, null}` snapshot when no overlay is loaded) onto the redo stack and
pops the undo stack; and from any state satisfying the history invariant,
`k` undos followed by `k` redos (decode modelled as immediate) restore the
whole state, in particular the live overlay raster and every transform
field, for any `k` up to the undo-stack size. -/
theorem undo_redo_round_trip (s : AppState) (hInv : HistoryInv s) :
    (s.undoStack = [] → undoA s = s) ∧
    (∀ (prev : Option Snap) (rest : List (Option Snap)), s.undoStack = prev :: rest →
        (undoA s).redoStack = currentSnap s :: s.redoStack ∧ (undoA s).undoStack = rest) ∧
    (∀ k : ℕ, k ≤ s.undoStack.length → redoA^[k] (undoA^[k] s) = s) :=
  ⟨fun h => undoA_empty h, fun prev rest h => undoA_push_pop s prev rest h,
    fun k hk => roundtrip_iterate k s hInv hk⟩

theorem exHistState_inv : HistoryInv exHistState := by
  refine ⟨?_, ?_, rfl⟩
  · intro sn hsn
    simp only [exHistState, initState, List.mem_singleton] at hsn
    exact ⟨_, hsn, rfl⟩
  · intro h
    simp [exHistState, initState] at h

theorem undo_redo_round_trip_witness :
    HistoryInv exHistState ∧ redoA^[1] (undoA^[1] exHistState) = exHistState :=
  ⟨exHistState_inv,
    (undo_redo_round_trip exHistState exHistState_inv).2.2 1
      (by norm_num [exHistState, initState])⟩

/-! ## Overlay reference lineage lemmas (one per handler) -/

theorem refs_saveState {s : AppState} (h : s.overlayOriginalImg = s.overlayImg) :
    (saveState s).overlayOriginalImg = (saveState s).overlayImg := by
  rw [(saveState_eq_stacksOnly s).2.2.1, (saveState_eq_stacksOnly s).2.1]
  exact h

theorem refs_loadBgEvt {s : AppState} (h : s.overlayOriginalImg = s.overlayImg)
    (bw bh : ℝ) : (loadBgEvt s bw bh).overlayOriginalImg = (loadBgEvt s bw bh).overlayImg := by
  rcases s with ⟨bg, oi, oo, st, us, rs, cm, cp, c1, c2, dg, dd, rz, rh⟩
  rcases oi with _ | ov <;> simpa [loadBgEvt] using h

theorem refs_loadOverlayEvt {s : AppState} (h : s.overlayOriginalImg = s.overlayImg)
    (raw : Raster) :
    (loadOverlayEvt s raw).overlayOriginalImg = (loadOverlayEvt s raw).overlayImg := by
  rcases s with ⟨bg, oi, oo, st, us, rs, cm, cp, c1, c2, dg, dd, rz, rh⟩
  rcases bg with _ | bgd
  · exact h
  · simp only [loadOverlayEvt]
    exact refs_saveState rfl

theorem refs_removeOverlayEvt (s : AppState) :
    (removeOverlayEvt s).overlayOriginalImg = (removeOverlayEvt s).overlayImg := rfl

theorem refs_newSessionEvt (s : AppState) :
    (newSessionEvt s).overlayOriginalImg = (newSessionEvt s).overlayImg := rfl

theorem refs_undoA {s : AppState} (h : s.overlayOriginalImg = s.overlayImg) :
    (undoA s).overlayOriginalImg = (undoA s).overlayImg := by
  rcases s with ⟨bg, oi, oo, st, us, rs, cm, cp, c1, c2, dg, dd, rz, rh⟩
  rcases us with _ | ⟨prev, rest⟩
  · exact h
  · rcases prev with _ | p <;> rfl

theorem refs_redoA {s : AppState} (h : s.overlayOriginalImg = s.overlayImg) :
    (redoA s).overlayOriginalImg = (redoA s).overlayImg := by
  rcases s with ⟨bg, oi, oo, st, us, rs, cm, cp, c1, c2, dg, dd, rz, rh⟩
  rcases rs with _ | ⟨next, rest⟩
  · exact h
  · rcases next with _ | p <;> rfl

theorem refs_smallerEvt {s : AppState} (h : s.overlayOriginalImg = s.overlayImg) :
    (smallerEvt s).overlayOriginalImg = (smallerEvt s).overlayImg := by
  rcases s with ⟨bg, oi, oo, st, us, rs, cm, cp, c1, c2, dg, dd, rz, rh⟩
  rcases oi with _ | ov
  · exact h
  · rcases hbg : (saveState (AppState.mk bg (some ov) oo st us rs cm cp c1 c2 dg dd rz rh)).bg
      with _ | bgd <;>
      simp only [smallerEvt, hbg] <;> exact refs_saveState h

theorem refs_biggerEvt {s : AppState} (h : s.overlayOriginalImg = s.overlayImg) :
    (biggerEvt s).overlayOriginalImg = (biggerEvt s).overlayImg := by
  rcases s with ⟨bg, oi, oo, st, us, rs, cm, cp, c1, c2, dg, dd, rz, rh⟩
  rcases oi with _ | ov
  · exact h
  · rcases hbg : (saveState (AppState.mk bg (some ov) oo st us rs cm cp c1 c2 dg dd rz rh)).bg
      with _ | bgd
    · simp only [biggerEvt, hbg]
      exact refs_saveState h
    · simp only [biggerEvt, hbg]
      split <;> exact refs_saveState h

theorem refs_setAngleEvt {s : AppState} (h : s.overlayOriginalImg = s.overlayImg) (v : ℝ) :
    (setAngleEvt s v).overlayOriginalImg = (setAngleEvt s v).overlayImg := by
  simpa [setAngleEvt] using refs_saveState h

theorem refs_rotM5Evt {s : AppState} (h : s.overlayOriginalImg = s.overlayImg) :
    (rotM5Evt s).overlayOriginalImg = (rotM5Evt s).overlayImg := by
  simpa [rotM5Evt] using refs_saveState h

theorem refs_rotP5Evt {s : AppState} (h : s.overlayOriginalImg = s.overlayImg) :
    (rotP5Evt s).overlayOriginalImg = (rotP5Evt s).overlayImg := by
  simpa [rotP5Evt] using refs_saveState h

theorem refs_rotResetEvt {s : AppState} (h : s.overlayOriginalImg = s.overlayImg) :
    (rotResetEvt s).overlayOriginalImg = (rotResetEvt s).overlayImg := by
  simpa [rotResetEvt] using refs_saveState h

theorem refs_flipHEvt {s : AppState} (h : s.overlayOriginalImg = s.overlayImg) :
    (flipHEvt s).overlayOriginalImg = (flipHEvt s).overlayImg := by
  simpa [flipHEvt] using refs_saveState h

theorem refs_flipVEvt {s : AppState} (h : s.overlayOriginalImg = s.overlayImg) :
    (flipVEvt s).overlayOriginalImg = (flipVEvt s).overlayImg := by
  simpa [flipVEvt] using refs_saveState h

theorem refs_cropToggleEvt {s : AppState} (h : s.overlayOriginalImg = s.overlayImg) :
    (cropToggleEvt s).overlayOriginalImg = (cropToggleEvt s).overlayImg := by
  rcases s with ⟨bg, oi, oo, st, us, rs, cm, cp, c1, c2, dg, dd, rz, rh⟩
  rcases oi with _ | ov
  · exact h
  · simp only [cropToggleEvt]
    split
    · exact h
    · simpa using refs_saveState h

theorem refs_performCropApp {s : AppState} (h : s.overlayOriginalImg = s.overlayImg) :
    (performCropApp s).overlayOriginalImg = (performCropApp s).overlayImg := by
  rcases s with ⟨bg, oi, oo, st, us, rs, cm, cp, c1, c2, dg, dd, rz, rh⟩
  rcases c1 with _ | cs
  · exact h
  rcases c2 with _ | ce
  · exact h
  rcases oo with _ | img
  · exact h
  rcases bg with _ | bgd
  · exact h
  simp only [performCropApp]
  split_ifs <;> first | exact h | rfl

theorem refs_pointerdownEvt {s : AppState} (h : s.overlayOriginalImg = s.overlayImg)
    (px py : ℝ) :
    (pointerdownEvt s px py).overlayOriginalImg = (pointerdownEvt s px py).overlayImg := by
  rcases s with ⟨bg, oi, oo, st, us, rs, cm, cp, c1, c2, dg, dd, rz, rh⟩
  rcases oi with _ | ov
  · exact h
  · rcases bg with _ | bgd
    · exact h
    · have hs := refs_saveState (s := AppState.mk (some bgd) (some ov) oo st us rs cm cp c1 c2 dg dd rz rh) h
      simp only [pointerdownEvt]
      split
      · rcases hoo : (saveState (AppState.mk (some bgd) (some ov) oo st us rs cm cp c1 c2 dg dd rz rh)).overlayOriginalImg with _ | oo2
        · simpa [hoo] using hs
        · simp only [hoo]
          split <;> simpa [hoo] using hs
      · split
        · simpa using hs
        · split
          · simpa using hs
          · split
            · simpa using hs
            · split
              · simpa using hs
              · split
                · simpa using hs
                · simpa using hs

theorem refs_pointermoveEvt {s : AppState} (h : s.overlayOriginalImg = s.overlayImg)
    (px py : ℝ) :
    (pointermoveEvt s px py).overlayOriginalImg = (pointermoveEvt s px py).overlayImg := by
  rcases s with ⟨bg, oi, oo, st, us, rs, cm, cp, c1, c2, dg, dd, rz, rh⟩
  rcases oi with _ | ov
  · exact h
  · rcases bg with _ | bgd
    · exact h
    · simp only [pointermoveEvt]
      split
      · exact h
      · split
        · exact h
        · split <;> exact h

theorem refs_pointerupEvt {s : AppState} (h : s.overlayOriginalImg = s.overlayImg) :
    (pointerupEvt s).overlayOriginalImg = (pointerupEvt s).overlayImg := by
  simp only [pointerupEvt]
  split
  · exact refs_performCropApp h
  · split
    · split <;> exact h
    · split <;> exact h

/-- C9: single raster lineage. In every reachable state the current and the
original overlay reference are the same image (or both null): every install
site (overlay load, crop commit, undo/redo restore) writes both references
from one buffer. -/
theorem single_raster_lineage (s : AppState) (h : Reachable s) :
    s.overlayOriginalImg = s.overlayImg := by
  induction h with
  | init => rfl
  | loadBg bw bh _ ih => exact refs_loadBgEvt ih bw bh
  | loadOverlay raw _ ih => exact refs_loadOverlayEvt ih raw
  | removeOverlay _ _ => exact refs_removeOverlayEvt _
  | newSession _ _ => exact refs_newSessionEvt _
  | undoStep _ ih => exact refs_undoA ih
  | redoStep _ ih => exact refs_redoA ih
  | smaller _ ih => exact refs_smallerEvt ih
  | bigger _ ih => exact refs_biggerEvt ih
  | setAngle v _ ih => exact refs_setAngleEvt ih v
  | rotM5 _ ih => exact refs_rotM5Evt ih
  | rotP5 _ ih => exact refs_rotP5Evt ih
  | rotReset _ ih => exact refs_rotResetEvt ih
  | flipH _ ih => exact refs_flipHEvt ih
  | flipV _ ih => exact refs_flipVEvt ih
  | cropToggle _ ih => exact refs_cropToggleEvt ih
  | pointerdown px py _ ih => exact refs_pointerdownEvt ih px py
  | pointermove px py _ ih => exact refs_pointermoveEvt ih px py
  | pointerup _ ih => exact refs_pointerupEvt ih

theorem single_raster_lineage_witness :
    Reachable initState ∧ initState.overlayOriginalImg = initState.overlayImg :=
  ⟨Reachable.init, single_raster_lineage initState Reachable.init⟩


/-! ## Geometry lemmas -/

theorem ite_lt_max (x c : ℝ) : (if x < c then c else x) = max c x := by
  rcases lt_or_le x c with h | h
  · rw [if_pos h, max_eq_left h.le]
  · rw [if_neg (not_lt.mpr h), max_eq_right h]

/-- C10 (implicit): while a background and an overlay are loaded, every
pointer-down pushes the current-state snapshot onto the undo stack and
empties the redo stack before hit classification, for every pointer
position — also when the pointer hits neither a handle nor the overlay. -/
theorem pointerdown_snapshots (s : AppState) (ov oo : Raster) (bgd : ℝ × ℝ) (px py : ℝ)
    (h1 : s.overlayImg = some ov) (h2 : s.overlayOriginalImg = some oo)
    (h3 : s.bg = some bgd) :
    (pointerdownEvt s px py).undoStack = some ⟨ov, oo, s.overlayState⟩ :: s.undoStack ∧
    (pointerdownEvt s px py).redoStack = [] := by
  rcases s with ⟨bg, oi, oo0, st, us, rs, cm, cp, c1, c2, dg, dd, rz, rh⟩
  simp only at h1 h2 h3
  subst h1
  subst h2
  subst h3
  simp only [pointerdownEvt, saveState]
  split_ifs <;> exact ⟨rfl, rfl⟩

theorem pointerdown_snapshots_witness :
    (pointerdownEvt exDownState 500 500).undoStack =
        some ⟨exRaster, exRaster, exDownState.overlayState⟩ :: exDownState.undoStack ∧
    (pointerdownEvt exDownState 500 500).redoStack = [] :=
  pointerdown_snapshots exDownState exRaster exRaster (200, 100) 500 500 rfl rfl rfl

/-- C4: drag rule. During a drag move the new origin is the pointer minus
the anchor offset rotated by `+angleDegrees`, minus the scaled half
extents, clamped per axis into `[0, bgWidth-w] × [0, bgHeight-h]`; the
stored anchor offset is never modified by a move; and in the concrete
scenario (100×50 overlay, scale 1, angle 0, anchor (10,5), pointer
(80,70)) the resulting origin is `(20, 40)`. -/
theorem drag_rule :
    (∀ (s : AppState) (ov : Raster) (bgd : ℝ × ℝ) (px py : ℝ),
      s.overlayImg = some ov → s.bg = some bgd → s.cropping = false →
      s.resizing = false → s.dragging = true →
      (pointermoveEvt s px py).overlayState.x =
        clampOrigin (bgd.1 - (ov.width : ℝ) * |s.overlayState.scale|)
          (px - (rotByDeg s.overlayState.angle s.dragData).1 -
            (ov.width : ℝ) * |s.overlayState.scale| / 2) ∧
      (pointermoveEvt s px py).overlayState.y =
        clampOrigin (bgd.2 - (ov.height : ℝ) * |s.overlayState.scale|)
          (py - (rotByDeg s.overlayState.angle s.dragData).2 -
            (ov.height : ℝ) * |s.overlayState.scale| / 2) ∧
      (pointermoveEvt s px py).overlayState.scale = s.overlayState.scale ∧
      (pointermoveEvt s px py).overlayState.angle = s.overlayState.angle) ∧
    (∀ (s : AppState) (px py : ℝ), (pointermoveEvt s px py).dragData = s.dragData) ∧
    ((pointermoveEvt dragScenarioState 80 70).overlayState.x = 20 ∧
     (pointermoveEvt dragScenarioState 80 70).overlayState.y = 40) := by
  refine ⟨?_, ?_, ?_⟩
  · intro s ov bgd px py h1 h2 h3 h4 h5
    rcases s with ⟨bg, oi, oo, st, us, rs, cm, cp, c1, c2, dg, dd, rz, rh⟩
    simp only at h1 h2 h3 h4 h5
    subst h1
    subst h2
    subst h3
    subst h4
    subst h5
    simp [pointermoveEvt, rotByDeg, clampOrigin]
  · intro s px py
    rcases s with ⟨bg, oi, oo, st, us, rs, cm, cp, c1, c2, dg, dd, rz, rh⟩
    rcases oi with _ | ov
    · rfl
    rcases bg with _ | bgd
    · rfl
    simp only [pointermoveEvt]
    split_ifs <;> rfl
  · constructor <;>
      norm_num [pointermoveEvt, dragScenarioState, initState, ovDrag,
        Real.cos_zero, Real.sin_zero]


/-- C3: resize rule. On a resize move, with the pointer mapped into local
space by the inverse rotation, the new scale is the aspect-preserving
candidate `min(2|localX|/width, 2|localY|/height)` clamped into
`[0.05, min(bgWidth/width, bgHeight/height)]`; the origin is recomputed
from the new scaled extents about the unchanged centre and clamped into
background bounds; consequently the scaled width/height ratio equals the
intrinsic ratio for any pointer position. -/
theorem resize_rule (s : AppState) (ov : Raster) (bgd : ℝ × ℝ) (px py : ℝ)
    (h1 : s.overlayImg = some ov) (h2 : s.bg = some bgd)
    (h3 : s.cropping = false) (h4 : s.resizing = true) :
    (pointermoveEvt s px py).overlayState.scale =
      clampI 0.05 (min (bgd.1 / (ov.width : ℝ)) (bgd.2 / (ov.height : ℝ)))
        (min
          (2 * |(toLocal s.overlayState
              (s.overlayState.x + (ov.width : ℝ) * |s.overlayState.scale| / 2,
               s.overlayState.y + (ov.height : ℝ) * |s.overlayState.scale| / 2)
              (px, py)).1| / (ov.width : ℝ))
          (2 * |(toLocal s.overlayState
              (s.overlayState.x + (ov.width : ℝ) * |s.overlayState.scale| / 2,
               s.overlayState.y + (ov.height : ℝ) * |s.overlayState.scale| / 2)
              (px, py)).2| / (ov.height : ℝ))) ∧
    (pointermoveEvt s px py).overlayState.x =
      clampOrigin (bgd.1 - (ov.width : ℝ) * (pointermoveEvt s px py).overlayState.scale)
        (s.overlayState.x + (ov.width : ℝ) * |s.overlayState.scale| / 2 -
          (ov.width : ℝ) * (pointermoveEvt s px py).overlayState.scale / 2) ∧
    (pointermoveEvt s px py).overlayState.y =
      clampOrigin (bgd.2 - (ov.height : ℝ) * (pointermoveEvt s px py).overlayState.scale)
        (s.overlayState.y + (ov.height : ℝ) * |s.overlayState.scale| / 2 -
          (ov.height : ℝ) * (pointermoveEvt s px py).overlayState.scale / 2) ∧
    (ov.width : ℝ) * (pointermoveEvt s px py).overlayState.scale /
        ((ov.height : ℝ) * (pointermoveEvt s px py).overlayState.scale) =
      (ov.width : ℝ) / (ov.height : ℝ) := by
  rcases s with ⟨bg, oi, oo, st, us, rs, cm, cp, c1, c2, dg, dd, rz, rh⟩
  simp only at h1 h2 h3 h4
  subst h1
  subst h2
  subst h3
  subst h4
  have hscale : (pointermoveEvt
      (AppState.mk (some bgd) (some ov) oo st us rs cm false c1 c2 dg dd true rh)
      px py).overlayState.scale =
      clampI 0.05 (min (bgd.1 / (ov.width : ℝ)) (bgd.2 / (ov.height : ℝ)))
        (min
          (2 * |(toLocal st
              (st.x + (ov.width : ℝ) * |st.scale| / 2,
               st.y + (ov.height : ℝ) * |st.scale| / 2) (px, py)).1| / (ov.width : ℝ))
          (2 * |(toLocal st
              (st.x + (ov.width : ℝ) * |st.scale| / 2,
               st.y + (ov.height : ℝ) * |st.scale| / 2) (px, py)).2| / (ov.height : ℝ))) := by
    simp only [pointermoveEvt, toLocal, rotByDeg, clampI, Bool.false_eq_true, if_false,
      if_true, ite_lt_max]
    rw [min_comm (min (bgd.1 / (ov.width : ℝ)) (bgd.2 / (ov.height : ℝ)))]
    simp [neg_mul, neg_div]
  have hpos : (0 : ℝ) <
      (pointermoveEvt (AppState.mk (some bgd) (some ov) oo st us rs cm false c1 c2 dg dd true rh)
        px py).overlayState.scale := by
    rw [hscale]
    have : (0.05 : ℝ) ≤ clampI 0.05 (min (bgd.1 / (ov.width : ℝ)) (bgd.2 / (ov.height : ℝ)))
        (min
          (2 * |(toLocal st
              (st.x + (ov.width : ℝ) * |st.scale| / 2,
               st.y + (ov.height : ℝ) * |st.scale| / 2) (px, py)).1| / (ov.width : ℝ))
          (2 * |(toLocal st
              (st.x + (ov.width : ℝ) * |st.scale| / 2,
               st.y + (ov.height : ℝ) * |st.scale| / 2) (px, py)).2| / (ov.height : ℝ))) :=
      le_max_left _ _
    linarith
  refine ⟨hscale, ?_, ?_, ?_⟩
  · simp [pointermoveEvt, clampOrigin]
  · simp [pointermoveEvt, clampOrigin]
  · rcases eq_or_ne ((ov.height : ℝ)) 0 with hh | hh
    · rw [hh]
      simp
    · rw [mul_div_mul_right _ _ (ne_of_gt hpos)]


/-- C2: crop anchoring. When the crop commits, the new overlay raster is
the `[u1,u2) × [v1,v2)` sub-rectangle of the old raster (indices from the
normalized, un-flipped selection) and replaces both overlay references,
and the new transform is the spec's anchoring formula (shift by the
rotated crop centre, re-centre, clamp); scale, angle and flips are
unchanged. -/
theorem crop_anchoring (s : AppState) (cs ce : ℝ × ℝ) (img : Raster) (bgd : ℝ × ℝ)
    (h1 : s.cropStart = some cs) (h2 : s.cropEnd = some ce)
    (h3 : s.overlayOriginalImg = some img) (h4 : s.bg = some bgd)
    (h5 : 0 < idxU2 cs ce s.overlayState img.width - idxU1 cs ce s.overlayState img.width)
    (h6 : 0 < idxV2 cs ce s.overlayState img.height - idxV1 cs ce s.overlayState img.height) :
    (performCropApp s).overlayImg =
      some (subRect img (idxU1 cs ce s.overlayState img.width).toNat
        (idxV1 cs ce s.overlayState img.height).toNat
        (idxU2 cs ce s.overlayState img.width - idxU1 cs ce s.overlayState img.width).toNat
        (idxV2 cs ce s.overlayState img.height - idxV1 cs ce s.overlayState img.height).toNat) ∧
    (performCropApp s).overlayOriginalImg = (performCropApp s).overlayImg ∧
    (performCropApp s).overlayState =
      specCropTransform cs ce s.overlayState img.width img.height bgd.1 bgd.2 ∧
    (performCropApp s).overlayState.scale = s.overlayState.scale ∧
    (performCropApp s).overlayState.angle = s.overlayState.angle ∧
    (performCropApp s).overlayState.flipH = s.overlayState.flipH ∧
    (performCropApp s).overlayState.flipV = s.overlayState.flipV := by
  rcases s with ⟨bg, oi, oo, st, us, rs, cm, cp, c1, c2, dg, dd, rz, rh⟩
  simp only at h1 h2 h3 h4 h5 h6
  subst h1
  subst h2
  subst h3
  subst h4
  simp only [idxU1, idxU2, idxV1, idxV2, selX1, selX2, selY1, selY2] at h5 h6
  simp only [performCropApp]
  rw [if_neg (by push_neg; exact ⟨h5, h6⟩)]
  exact ⟨rfl, rfl, rfl, rfl, rfl, rfl, rfl⟩

theorem crop_anchoring_witness :
    (performCropApp exCropState).overlayState =
      specCropTransform (-1, -1) (1, 1) exCropState.overlayState img4.width img4.height
        10 10 := by
  have h := crop_anchoring exCropState (-1, -1) (1, 1) img4 (10, 10) rfl rfl rfl rfl
    (by norm_num [idxU1, idxU2, selX1, selX2, exCropState, initState, img4, Int.floor_one,
      Int.ceil_ofNat])
    (by norm_num [idxV1, idxV2, selY1, selY2, exCropState, initState, img4, Int.floor_one,
      Int.ceil_ofNat])
  exact h.2.2.1

/-- C6: crop abort atomicity. The pixel indices are computed by the
floor/ceil formulas from the normalized, un-flipped selection, and when the
resulting width or height is non-positive the whole operation only clears
the selection: rasters, transform and history are untouched and no error is
raised (the model is a total function). -/
theorem crop_abort_atomic (s : AppState) (cs ce : ℝ × ℝ) (img : Raster) (bgd : ℝ × ℝ)
    (h1 : s.cropStart = some cs) (h2 : s.cropEnd = some ce)
    (h3 : s.overlayOriginalImg = some img) (h4 : s.bg = some bgd)
    (h5 : idxU2 cs ce s.overlayState img.width - idxU1 cs ce s.overlayState img.width ≤ 0 ∨
          idxV2 cs ce s.overlayState img.height - idxV1 cs ce s.overlayState img.height ≤ 0) :
    performCropApp s = { s with cropStart := none, cropEnd := none } ∧
    (performCropApp s).overlayImg = s.overlayImg ∧
    (performCropApp s).overlayOriginalImg = s.overlayOriginalImg ∧
    (performCropApp s).overlayState = s.overlayState ∧
    (performCropApp s).undoStack = s.undoStack ∧
    (performCropApp s).redoStack = s.redoStack ∧
    idxU1 cs ce s.overlayState img.width =
      max 0 ⌊(if s.overlayState.flipH then -(max cs.1 ce.1) else min cs.1 ce.1) +
        (img.width : ℝ) / 2⌋ ∧
    idxU2 cs ce s.overlayState img.width =
      min (img.width : ℤ) ⌈(if s.overlayState.flipH then -(min cs.1 ce.1) else max cs.1 ce.1) +
        (img.width : ℝ) / 2⌉ ∧
    idxV1 cs ce s.overlayState img.height =
      max 0 ⌊(if s.overlayState.flipV then -(max cs.2 ce.2) else min cs.2 ce.2) +
        (img.height : ℝ) / 2⌋ ∧
    idxV2 cs ce s.overlayState img.height =
      min (img.height : ℤ) ⌈(if s.overlayState.flipV then -(min cs.2 ce.2) else max cs.2 ce.2) +
        (img.height : ℝ) / 2⌉ := by
  rcases s with ⟨bg, oi, oo, st, us, rs, cm, cp, c1, c2, dg, dd, rz, rh⟩
  simp only at h1 h2 h3 h4 h5
  subst h1
  subst h2
  subst h3
  subst h4
  simp only [idxU1, idxU2, idxV1, idxV2, selX1, selX2, selY1, selY2] at h5
  simp only [performCropApp]
  rw [if_pos h5]
  exact ⟨rfl, rfl, rfl, rfl, rfl, rfl, rfl, rfl, rfl, rfl⟩

theorem crop_abort_atomic_witness :
    performCropApp exAbortState = { exAbortState with cropStart := none, cropEnd := none } := by
  have h := crop_abort_atomic exAbortState (10, 10) (10, 10) img4 (10, 10) rfl rfl rfl rfl
    (Or.inl (by norm_num [idxU1, idxU2, selX1, selX2, exAbortState, initState, img4]))
  exact h.1

theorem resize_rule_witness :
    (ovResize.width : ℝ) * (pointermoveEvt exResizeState 7 6).overlayState.scale /
        ((ovResize.height : ℝ) * (pointermoveEvt exResizeState 7 6).overlayState.scale) =
      (ovResize.width : ℝ) / (ovResize.height : ℝ) :=
  (resize_rule exResizeState ovResize (10, 10) 7 6 rfl rfl rfl rfl).2.2.2


/-! ## Reachability of the history invariant -/

theorem fullInv_historyInv {s : AppState} (h : FullInv s) : HistoryInv s :=
  ⟨h.1, fun hn => (h.2.2.1 hn).1, h.2.2.2⟩

theorem fullInv_congr {s t : AppState} (h : FullInv s)
    (h1 : t.undoStack = s.undoStack) (h2 : t.redoStack = s.redoStack)
    (h3 : t.overlayImg = s.overlayImg) (h4 : t.overlayOriginalImg = s.overlayOriginalImg) :
    FullInv t := by
  obtain ⟨a, b, c, d⟩ := h
  refine ⟨?_, ?_, ?_, ?_⟩
  · rw [h1]
    exact a
  · rw [h2]
    exact b
  · intro hn
    rw [h1, h2]
    exact c (h3 ▸ hn)
  · rw [h4, h3]
    exact d

theorem fullInv_initState : FullInv initState := by
  refine ⟨?_, ?_, fun _ => ⟨rfl, rfl⟩, rfl⟩ <;> intro sn hsn <;> simp [initState] at hsn

theorem fullInv_saveState {s : AppState} (h : FullInv s) : FullInv (saveState s) := by
  rcases s with ⟨bg, oi, oo, st, us, rs, cm, cp, c1, c2, dg, dd, rz, rh⟩
  rcases oi with _ | ov
  · exact h
  rcases oo with _ | ov2
  · exact h
  obtain ⟨a, b, c, d⟩ := h
  simp only at d
  refine ⟨?_, ?_, ?_, ?_⟩
  · intro sn hsn
    simp only [saveState, List.mem_cons] at hsn
    rcases hsn with hsn | hsn
    · exact ⟨_, hsn, by simpa using d⟩
    · exact a sn hsn
  · intro sn hsn
    simp [saveState] at hsn
  · intro hn
    simp [saveState] at hn
  · simpa [saveState] using d

theorem fullInv_undoA {s : AppState} (h : FullInv s) : FullInv (undoA s) := by
  rcases s with ⟨bg, oi, oo, st, us, rs, cm, cp, c1, c2, dg, dd, rz, rh⟩
  obtain ⟨a, b, c, d⟩ := h
  rcases us with _ | ⟨prev, rest⟩
  · exact ⟨a, b, c, d⟩
  obtain ⟨p, hp, hpd⟩ := a prev (List.mem_cons_self _ _)
  subst hp
  rcases oi with _ | ov
  · have h0 := (c rfl).1
    simp at h0
  simp only at d
  subst d
  refine ⟨?_, ?_, ?_, ?_⟩
  · intro sn hsn
    refine a sn (List.mem_cons_of_mem _ ?_)
    simpa [undoA] using hsn
  · intro sn hsn
    simp only [undoA, currentSnap, List.mem_cons] at hsn
    rcases hsn with hsn | hsn
    · exact ⟨_, hsn, rfl⟩
    · exact b sn hsn
  · intro hn
    simp [undoA] at hn
  · simp [undoA]

theorem fullInv_redoA {s : AppState} (h : FullInv s) : FullInv (redoA s) := by
  rcases s with ⟨bg, oi, oo, st, us, rs, cm, cp, c1, c2, dg, dd, rz, rh⟩
  obtain ⟨a, b, c, d⟩ := h
  rcases rs with _ | ⟨next, rest⟩
  · exact ⟨a, b, c, d⟩
  obtain ⟨p, hp, hpd⟩ := b next (List.mem_cons_self _ _)
  subst hp
  rcases oi with _ | ov
  · have h0 := (c rfl).2
    simp at h0
  simp only at d
  subst d
  refine ⟨?_, ?_, ?_, ?_⟩
  · intro sn hsn
    simp only [redoA, currentSnap, List.mem_cons] at hsn
    rcases hsn with hsn | hsn
    · exact ⟨_, hsn, rfl⟩
    · exact a sn hsn
  · intro sn hsn
    refine b sn (List.mem_cons_of_mem _ ?_)
    simpa [redoA] using hsn
  · intro hn
    simp [redoA] at hn
  · simp [redoA]

theorem fullInv_loadBgEvt {s : AppState} (h : FullInv s) (bw bh : ℝ) :
    FullInv (loadBgEvt s bw bh) := by
  rcases s with ⟨bg, oi, oo, st, us, rs, cm, cp, c1, c2, dg, dd, rz, rh⟩
  rcases oi with _ | ov <;> exact fullInv_congr h rfl rfl rfl rfl

theorem fullInv_loadOverlayEvt {s : AppState} (h : FullInv s) (raw : Raster) :
    FullInv (loadOverlayEvt s raw) := by
  rcases s with ⟨bg, oi, oo, st, us, rs, cm, cp, c1, c2, dg, dd, rz, rh⟩
  rcases bg with _ | bgd
  · exact h
  refine fullInv_saveState ⟨?_, ?_, ?_, rfl⟩
  · intro x hx
    simp at hx
  · intro x hx
    simp at hx
  · intro hn
    simp at hn

theorem fullInv_removeOverlayEvt {s : AppState} : FullInv (removeOverlayEvt s) := by
  refine ⟨?_, ?_, fun _ => ⟨rfl, rfl⟩, rfl⟩ <;> intro sn hsn <;>
    simp [removeOverlayEvt] at hsn

theorem fullInv_newSessionEvt {s : AppState} : FullInv (newSessionEvt s) := by
  refine ⟨?_, ?_, fun _ => ⟨rfl, rfl⟩, rfl⟩ <;> intro sn hsn <;>
    simp [newSessionEvt] at hsn

theorem fullInv_smallerEvt {s : AppState} (h : FullInv s) : FullInv (smallerEvt s) := by
  rcases s with ⟨bg, oi, oo, st, us, rs, cm, cp, c1, c2, dg, dd, rz, rh⟩
  rcases oi with _ | ov
  · exact h
  rcases hbg : (saveState (AppState.mk bg (some ov) oo st us rs cm cp c1 c2 dg dd rz rh)).bg
    with _ | bgd <;>
    simp only [smallerEvt, hbg] <;>
    exact fullInv_congr (fullInv_saveState h) rfl rfl rfl rfl

theorem fullInv_biggerEvt {s : AppState} (h : FullInv s) : FullInv (biggerEvt s) := by
  rcases s with ⟨bg, oi, oo, st, us, rs, cm, cp, c1, c2, dg, dd, rz, rh⟩
  rcases oi with _ | ov
  · exact h
  rcases hbg : (saveState (AppState.mk bg (some ov) oo st us rs cm cp c1 c2 dg dd rz rh)).bg
    with _ | bgd
  · simp only [biggerEvt, hbg]
    exact fullInv_congr (fullInv_saveState h) rfl rfl rfl rfl
  · simp only [biggerEvt, hbg]
    split
    · exact fullInv_saveState h
    · exact fullInv_congr (fullInv_saveState h) rfl rfl rfl rfl

theorem fullInv_setAngleEvt {s : AppState} (h : FullInv s) (v : ℝ) :
    FullInv (setAngleEvt s v) :=
  fullInv_congr (fullInv_saveState h) rfl rfl rfl rfl

theorem fullInv_rotM5Evt {s : AppState} (h : FullInv s) : FullInv (rotM5Evt s) :=
  fullInv_congr (fullInv_saveState h) rfl rfl rfl rfl

theorem fullInv_rotP5Evt {s : AppState} (h : FullInv s) : FullInv (rotP5Evt s) :=
  fullInv_congr (fullInv_saveState h) rfl rfl rfl rfl

theorem fullInv_rotResetEvt {s : AppState} (h : FullInv s) : FullInv (rotResetEvt s) :=
  fullInv_congr (fullInv_saveState h) rfl rfl rfl rfl

theorem fullInv_flipHEvt {s : AppState} (h : FullInv s) : FullInv (flipHEvt s) :=
  fullInv_congr (fullInv_saveState h) rfl rfl rfl rfl

theorem fullInv_flipVEvt {s : AppState} (h : FullInv s) : FullInv (flipVEvt s) :=
  fullInv_congr (fullInv_saveState h) rfl rfl rfl rfl

theorem fullInv_cropToggleEvt {s : AppState} (h : FullInv s) : FullInv (cropToggleEvt s) := by
  rcases s with ⟨bg, oi, oo, st, us, rs, cm, cp, c1, c2, dg, dd, rz, rh⟩
  rcases oi with _ | ov
  · exact h
  simp only [cropToggleEvt]
  split
  · exact fullInv_congr h rfl rfl rfl rfl
  · exact fullInv_congr (fullInv_saveState h) rfl rfl rfl rfl

theorem fullInv_performCropApp {s : AppState} (h : FullInv s) : FullInv (performCropApp s) := by
  rcases s with ⟨bg, oi, oo, st, us, rs, cm, cp, c1, c2, dg, dd, rz, rh⟩
  rcases c1 with _ | cs
  · exact h
  rcases c2 with _ | ce
  · exact h
  rcases oo with _ | img
  · exact h
  rcases bg with _ | bgd
  · exact h
  simp only [performCropApp]
  split_ifs <;>
    first
    | exact fullInv_congr h rfl rfl rfl rfl
    | exact ⟨h.1, h.2.1, fun hn => by simp at hn, rfl⟩

theorem fullInv_pointerdownEvt {s : AppState} (h : FullInv s) (px py : ℝ) :
    FullInv (pointerdownEvt s px py) := by
  rcases s with ⟨bg, oi, oo, st, us, rs, cm, cp, c1, c2, dg, dd, rz, rh⟩
  rcases oi with _ | ov
  · exact h
  rcases bg with _ | bgd
  · exact h
  simp only [pointerdownEvt]
  split_ifs
  all_goals
    first
    | exact fullInv_congr (fullInv_saveState h) rfl rfl rfl rfl
    | (rcases hoo : (saveState (AppState.mk (some bgd) (some ov) oo st us rs cm cp c1 c2 dg
          dd rz rh)).overlayOriginalImg with _ | oo2 <;>
        simp only [hoo] <;>
        first
        | exact fullInv_congr (fullInv_saveState h) rfl rfl rfl rfl
        | (split_ifs <;> exact fullInv_congr (fullInv_saveState h) rfl rfl rfl (by rw [hoo])))

theorem fullInv_pointermoveEvt {s : AppState} (h : FullInv s) (px py : ℝ) :
    FullInv (pointermoveEvt s px py) := by
  rcases s with ⟨bg, oi, oo, st, us, rs, cm, cp, c1, c2, dg, dd, rz, rh⟩
  rcases oi with _ | ov
  · exact h
  rcases bg with _ | bgd
  · exact h
  simp only [pointermoveEvt]
  split_ifs <;> exact fullInv_congr h rfl rfl rfl rfl

theorem fullInv_pointerupEvt {s : AppState} (h : FullInv s) : FullInv (pointerupEvt s) := by
  simp only [pointerupEvt]
  split_ifs
  · exact fullInv_performCropApp (fullInv_congr h rfl rfl rfl rfl)
  all_goals exact fullInv_congr h rfl rfl rfl rfl

theorem fullInv_of_reachable (s : AppState) (h : Reachable s) : FullInv s := by
  induction h with
  | init => exact fullInv_initState
  | loadBg bw bh _ ih => exact fullInv_loadBgEvt ih bw bh
  | loadOverlay raw _ ih => exact fullInv_loadOverlayEvt ih raw
  | removeOverlay _ _ => exact fullInv_removeOverlayEvt
  | newSession _ _ => exact fullInv_newSessionEvt
  | undoStep _ ih => exact fullInv_undoA ih
  | redoStep _ ih => exact fullInv_redoA ih
  | smaller _ ih => exact fullInv_smallerEvt ih
  | bigger _ ih => exact fullInv_biggerEvt ih
  | setAngle v _ ih => exact fullInv_setAngleEvt ih v
  | rotM5 _ ih => exact fullInv_rotM5Evt ih
  | rotP5 _ ih => exact fullInv_rotP5Evt ih
  | rotReset _ ih => exact fullInv_rotResetEvt ih
  | flipH _ ih => exact fullInv_flipHEvt ih
  | flipV _ ih => exact fullInv_flipVEvt ih
  | cropToggle _ ih => exact fullInv_cropToggleEvt ih
  | pointerdown px py _ ih => exact fullInv_pointerdownEvt ih px py
  | pointermove px py _ ih => exact fullInv_pointermoveEvt ih px py
  | pointerup _ ih => exact fullInv_pointerupEvt ih

/-- Every reachable state satisfies the round-trip hypothesis of C1. -/
theorem historyInv_of_reachable (s : AppState) (h : Reachable s) : HistoryInv s :=
  fullInv_historyInv (fullInv_of_reachable s h)


end OverlayApp
